import Mathlib

/-!
# Verification of the sentiment-tracker session lifecycle core

A shallow embedding, in Lean 4, of the session lifecycle core of the
`liatrio/sentiment-tracker` repository:

* `SessionData` (`src/session_data.py`): per-session participant tracking,
  feedback accumulation and completion state;
* `ThreadSafeSessionStore` (`src/session_store.py`): the registry of live
  sessions with an optional capacity ceiling;
* `Scheduler` (`src/scheduler.py`): the delay scheduler with its heap of
  `_ScheduledItem`s, the background dispatch loop and graceful shutdown.

Python's in-place mutation is rendered as explicit state passing: every
operation takes the state and returns the new state.  Exceptions become
`Except` results; since every raising method of the source raises *before*
mutating any field, the pre-state is the state left behind by a failed call,
which the `apply…` wrappers make explicit.  Wall-clock readings
(`datetime.datetime.now` / `time.time`) are passed in as explicit `now`
arguments; timestamps are abstract instants (`Nat` for datetimes, `Int` for
the scheduler's epoch seconds).
-/

deriving instance DecidableEq for Except

/-- Errors raised by `SessionData.submit`:
`alreadySubmitted` models `AlreadySubmittedError` (src/exceptions.py),
`notAParticipant` models the `ValueError` raised for a non-participant. -/
inductive SubmitError where
  | alreadySubmitted
  | notAParticipant
deriving DecidableEq

/-- The state of one feedback session, mirroring the fields set in
`SessionData.__init__` (src/session_data.py, lines 34-58).  The private
Python attribute `_is_complete` is rendered as the field `forced_complete`
(a leading underscore is not a valid start of a Lean field name). -/
structure SessionData where
  session_id : String
  initiator_user_id : String
  channel_id : String
  target_user_ids : List String
  time_limit_minutes : Option Int
  feedback_items : List String
  pending_users : Finset String
  submitted_users : Finset String
  created_at : Nat
  last_accessed_at : Nat
  forced_complete : Bool
  anonymized_summary : Option String
  reason : Option String
deriving DecidableEq

namespace SessionData

/-- Model of `SessionData.__init__`: `pending_users = set(target_user_ids)`,
`submitted_users = set()`, `feedback_items = []`, `_is_complete = False`,
`created_at = last_accessed_at = now`. -/
def init (session_id initiator_user_id channel_id : String)
    (target_user_ids : List String) (time_limit_minutes : Option Int)
    (reason : Option String) (now : Nat) : SessionData where
  session_id := session_id
  initiator_user_id := initiator_user_id
  channel_id := channel_id
  target_user_ids := target_user_ids
  time_limit_minutes := time_limit_minutes
  feedback_items := []
  pending_users := target_user_ids.toFinset
  submitted_users := ∅
  created_at := now
  last_accessed_at := now
  forced_complete := false
  anonymized_summary := none
  reason := reason

/-- Model of `SessionData.add_feedback`: append the item and refresh
`last_accessed_at`. -/
def add_feedback (s : SessionData) (feedback_item : String) (now : Nat) :
    SessionData :=
  { s with feedback_items := s.feedback_items ++ [feedback_item],
           last_accessed_at := now }

/-- Model of `SessionData.complete_session`: store the summary, set `_is_complete`,
refresh `last_accessed_at`. -/
def complete_session (s : SessionData) (anonymized_summary : String)
    (now : Nat) : SessionData :=
  { s with anonymized_summary := some anonymized_summary,
           forced_complete := true,
           last_accessed_at := now }

/-- The `is_complete` property: `self._is_complete or not self.pending_users`. -/
def is_complete (s : SessionData) : Bool :=
  s.forced_complete || s.pending_users = ∅

/-- Model of `SessionData.submit`: raises `AlreadySubmittedError` when the user is in
`submitted_users`, `ValueError` when the user is not in `pending_users`;
otherwise appends the feedback item, moves the user from `pending_users` to
`submitted_users` and refreshes `last_accessed_at`.  Both raises occur
before any field is mutated, so a failing call leaves the session as it
was. -/
def submit (s : SessionData) (user_id feedback_item : String) (now : Nat) :
    Except SubmitError SessionData :=
  if user_id ∈ s.submitted_users then
    .error .alreadySubmitted
  else if user_id ∉ s.pending_users then
    .error .notAParticipant
  else
    .ok { s with feedback_items := s.feedback_items ++ [feedback_item],
                 pending_users := s.pending_users.erase user_id,
                 submitted_users := insert user_id s.submitted_users,
                 last_accessed_at := now }

/-- The session state left behind by a call to `submit`: the new state on
success, the unchanged pre-state when the call raised (the Python method
raises before mutating anything). -/
def submitRun (s : SessionData) (user_id feedback_item : String) (now : Nat) :
    SessionData :=
  match s.submit user_id feedback_item now with
  | .ok s' => s'
  | .error _ => s

end SessionData

/-- One mutation of a live session: the operations of `SessionData` that the
orchestration layer performs after construction. -/
inductive SessionOp where
  | submit (user_id feedback_item : String) (now : Nat)
  | add_feedback (feedback_item : String) (now : Nat)
  | complete_session (anonymized_summary : String) (now : Nat)
deriving DecidableEq

/-- Apply one operation to a session (a failed `submit` leaves the session
unchanged, as in the source where the exception is raised before any
mutation). -/
def applyOp (s : SessionData) : SessionOp → SessionData
  | .submit u item now => s.submitRun u item now
  | .add_feedback item now => s.add_feedback item now
  | .complete_session summary now => s.complete_session summary now

/-- Apply a sequence of operations left to right. -/
def runOps (s : SessionData) : List SessionOp → SessionData
  | [] => s
  | op :: ops => runOps (applyOp s op) ops

/-- The participant-tracking invariant of the spec:
`pending ∩ submitted = ∅` and `pending ∪ submitted = target_participants`
(as a set of ids). -/
def SessionInv (s : SessionData) : Prop :=
  s.pending_users ∩ s.submitted_users = ∅ ∧
  s.pending_users ∪ s.submitted_users = s.target_user_ids.toFinset

instance (s : SessionData) : Decidable (SessionInv s) := by
  unfold SessionInv; infer_instance

/-! ## The session registry (`ThreadSafeSessionStore`, src/session_store.py)

The Python store keeps `self._sessions : Dict[str, SessionData]` under one
lock; every public method runs entirely inside the lock, so the store is a
sequential object and its behaviour is captured by pure functions on a
dictionary value.  The dictionary is rendered as an association list with
unique keys (`find?` on the first component is `dict.get`). -/

/-- Errors raised by `ThreadSafeSessionStore.add_session`: both are
`ValueError` in Python, distinguished here by their message —
`capacityExceeded` is the maximum-concurrent-session raise, `duplicateId`
the existing-id raise. -/
inductive AddError where
  | capacityExceeded
  | duplicateId
deriving DecidableEq

/-- Errors escaping `ThreadSafeSessionStore.modify_session`: `notFound`
models the `ValueError` for an absent id; `callerErr e` models an exception
raised by the caller-supplied `modifier`, which the store does not catch. -/
inductive ModifyError (ε : Type) where
  | notFound
  | callerErr (e : ε)
deriving DecidableEq

/-- State of `ThreadSafeSessionStore`: the id → session dictionary and the
optional capacity ceiling (already normalised by `__init__`). -/
structure ThreadSafeSessionStore where
  sessions : List (String × SessionData)
  max_sessions : Option Int
deriving DecidableEq

namespace ThreadSafeSessionStore

/-- Model of `ThreadSafeSessionStore.__init__`: the ceiling is kept only when
positive — `max_sessions if (max_sessions or 0) > 0 else None`, so `None`,
`0` and negative values all mean unlimited. -/
def mkStore (max_sessions : Option Int) : ThreadSafeSessionStore where
  sessions := []
  max_sessions := if 0 < max_sessions.getD 0 then max_sessions else none

/-- Model of `self._sessions.get(session_id)` on the underlying dictionary. -/
def find? (st : ThreadSafeSessionStore) (session_id : String) :
    Option SessionData :=
  (st.sessions.find? (fun p => p.1 == session_id)).map (·.2)

/-- Model of `len(self._sessions)`, the value `count()` returns. -/
def count (st : ThreadSafeSessionStore) : Nat :=
  st.sessions.length

/-- Model of `self._sessions[session_id] = session_data` on a dictionary whose keys
are unique: overwrite in place when present, append otherwise. -/
def dictInsert (st : ThreadSafeSessionStore) (session_data : SessionData) :
    ThreadSafeSessionStore :=
  if st.sessions.any (fun p => p.1 == session_data.session_id) then
    { st with sessions := st.sessions.map (fun p =>
        if p.1 == session_data.session_id then (p.1, session_data) else p) }
  else
    { st with sessions := st.sessions ++ [(session_data.session_id, session_data)] }

/-- The capacity guard of `add_session`:
`self._max_sessions is not None and len(self._sessions) >= self._max_sessions`. -/
def atCapacity (st : ThreadSafeSessionStore) : Bool :=
  match st.max_sessions with
  | none => false
  | some m => m ≤ (st.count : Int)

/-- Model of `ThreadSafeSessionStore.add_session`: the capacity ceiling is checked
first (`len(self._sessions) >= self._max_sessions`), then the duplicate id;
only then is the session inserted.  Both raises occur before the insert, so
a failing call leaves the store unchanged. -/
def add_session (st : ThreadSafeSessionStore) (session_data : SessionData) :
    Except AddError ThreadSafeSessionStore :=
  if st.atCapacity then
    .error .capacityExceeded
  else if st.find? session_data.session_id ≠ none then
    .error .duplicateId
  else
    .ok (st.dictInsert session_data)

/-- The store state left behind by a call to `add_session`: the new state
on success, the unchanged pre-state when the call raised. -/
def addRun (st : ThreadSafeSessionStore) (session_data : SessionData) :
    ThreadSafeSessionStore :=
  match st.add_session session_data with
  | .ok st' => st'
  | .error _ => st

/-- Model of `ThreadSafeSessionStore.modify_session`: look up the session; raise
`ValueError` when absent (the modifier is never invoked); otherwise run the
caller-supplied modifier on the stored session — an exception it raises
propagates uncaught — then refresh `last_accessed_at` and return the very
session object that the dictionary holds. -/
def modify_session {ε : Type} (st : ThreadSafeSessionStore)
    (session_id : String) (modifier : SessionData → Except ε SessionData)
    (now : Nat) : Except (ModifyError ε) (SessionData × ThreadSafeSessionStore) :=
  match st.find? session_id with
  | none => .error .notFound
  | some session =>
    match modifier session with
    | .error e => .error (.callerErr e)
    | .ok session' =>
      let stored := { session' with last_accessed_at := now }
      .ok (stored, { st with sessions := st.sessions.map (fun p =>
            if p.1 == session_id then (p.1, stored) else p) })

/-- Model of `ThreadSafeSessionStore.remove_session`: `self._sessions.pop(session_id,
None)`. -/
def remove_session (st : ThreadSafeSessionStore) (session_id : String) :
    Option SessionData × ThreadSafeSessionStore :=
  (st.find? session_id,
   { st with sessions := st.sessions.filter (fun p => p.1 != session_id) })

end ThreadSafeSessionStore

/-! ## The delay scheduler (`Scheduler`, src/scheduler.py)

`Scheduler` keeps a `heapq` min-heap of `_ScheduledItem`s ordered by
`(run_at, task_id)` and a background thread that repeatedly pops the due
minimum and submits it to the executor.  The heap is rendered as the list
of items in arrival order; popping the least element under `__lt__` is
`popMin`.  A callback together with its captured `args`/`kwargs` is opaque
to the scheduler, so it is modelled as a token (`Nat`).  The items handed
to the executor are recorded, in dispatch order, in the observation field
`dispatched`. -/

/-- Error raised by `Scheduler.schedule`: the `ValueError` for
`delay_seconds < 0`. -/
inductive ScheduleError where
  | invalidDelay
deriving DecidableEq

/-- Model of `_ScheduledItem`: absolute fire time, the tie-breaking task id, and the
boxed callback. -/
structure ScheduledItem where
  run_at : Int
  task_id : Nat
  callback : Nat
deriving DecidableEq

namespace ScheduledItem

/-- Model of `_ScheduledItem.__lt__`: `(self.run_at, self.task_id) <
(other.run_at, other.task_id)`, lexicographically. -/
def lt (a b : ScheduledItem) : Prop :=
  a.run_at < b.run_at ∨ (a.run_at = b.run_at ∧ a.task_id < b.task_id)

instance (a b : ScheduledItem) : Decidable (lt a b) := by
  unfold lt; infer_instance

/-- The reflexive closure of `_ScheduledItem.__lt__`: the order in which the
heap yields its elements. -/
def le (a b : ScheduledItem) : Prop :=
  a.run_at < b.run_at ∨ (a.run_at = b.run_at ∧ a.task_id ≤ b.task_id)

instance (a b : ScheduledItem) : Decidable (le a b) := by
  unfold le; infer_instance

/-- The strict heap order is vacuously antisymmetric (used to identify the
unique sorted dispatch order). -/
instance : IsAntisymm ScheduledItem lt where
  antisymm a b hab hba := by
    unfold lt at hab hba
    exfalso
    omega

end ScheduledItem

/-- Pop the least element under `_ScheduledItem.__lt__` from `x :: rest`
(what `heapq.heappop` returns from a heap holding these items), together
with the remaining items. -/
def popMin (x : ScheduledItem) : List ScheduledItem →
    ScheduledItem × List ScheduledItem
  | [] => (x, [])
  | y :: ys =>
    if ScheduledItem.lt y x then
      let p := popMin y ys
      (p.1, x :: p.2)
    else
      let p := popMin x ys
      (p.1, y :: p.2)

/-- Repeatedly pop the least remaining item, `fuel` times. -/
def dispatchFuel : Nat → List ScheduledItem → List ScheduledItem
  | 0, _ => []
  | _, [] => []
  | n + 1, x :: xs =>
    let p := popMin x xs
    p.1 :: dispatchFuel n p.2

/-- The order in which the background loop hands a queue of due tasks to the
executor: pop the heap minimum until the queue is empty. -/
def dispatchOrder (l : List ScheduledItem) : List ScheduledItem :=
  dispatchFuel l.length l

/-- State of `Scheduler`: the pending heap (as the multiset of queued
items), the `itertools.count()` counter, the `_running` flag, and the
record of items submitted to the executor so far, in submission order. -/
structure Scheduler where
  queue : List ScheduledItem
  task_counter : Nat
  running : Bool
  dispatched : List ScheduledItem
deriving DecidableEq

namespace Scheduler

/-- Model of `Scheduler.__init__`: empty queue, counter at zero, running background
thread. -/
def init : Scheduler where
  queue := []
  task_counter := 0
  running := true
  dispatched := []

/-- Model of `Scheduler.schedule`: raise `ValueError` for a negative delay — before
the counter is consumed or anything is queued; otherwise compute
`run_at = time.time() + delay_seconds`, draw the next task id and push the
item onto the heap. -/
def schedule (st : Scheduler) (now delay_seconds : Int) (callback : Nat) :
    Except ScheduleError (Nat × Scheduler) :=
  if delay_seconds < 0 then
    .error .invalidDelay
  else
    .ok (st.task_counter,
      { st with
        queue := st.queue ++ [⟨now + delay_seconds, st.task_counter, callback⟩],
        task_counter := st.task_counter + 1 })

/-- The scheduler state left behind by a call to `schedule`: the new state
on success, the unchanged pre-state when the call raised. -/
def scheduleRun (st : Scheduler) (now delay_seconds : Int) (callback : Nat) :
    Scheduler :=
  match st.schedule now delay_seconds callback with
  | .ok p => p.2
  | .error _ => st

/-- Model of `Scheduler.shutdown`: clear `_running` and join the background thread;
after the flag is cleared the loop's next iteration breaks out, so joining
terminates and the post-state is simply the stopped scheduler. -/
def shutdown (st : Scheduler) : Scheduler :=
  { st with running := false }

/-- One iteration of the background loop `Scheduler._run` observed at time
`now`: if `_running` is cleared the loop has exited and nothing happens;
otherwise, when the earliest task is due (`run_at - now <= 0`) it is popped
and submitted to the executor; an empty queue or a not-yet-due head is a
(timed) wait that dispatches nothing. -/
def runStep (st : Scheduler) (now : Int) : Scheduler :=
  if st.running then
    match st.queue with
    | [] => st
    | x :: xs =>
      let p := popMin x xs
      if p.1.run_at ≤ now then
        { st with queue := p.2, dispatched := st.dispatched ++ [p.1] }
      else st
  else st

/-- Iterate the background loop at the given sequence of observation
times. -/
def runLoop (st : Scheduler) : List Int → Scheduler
  | [] => st
  | now :: rest => (st.runStep now).runLoop rest

/-- A sequence of `schedule` calls `(now, delay_seconds, callback)` against
one scheduler, collecting the task ids of the successful calls. -/
def scheduleAll (st : Scheduler) : List (Int × Int × Nat) →
    List Nat × Scheduler
  | [] => ([], st)
  | (now, d, cb) :: rest =>
    match st.schedule now d cb with
    | .ok p =>
      let q := p.2.scheduleAll rest
      (p.1 :: q.1, q.2)
    | .error _ => st.scheduleAll rest

end Scheduler

/-! ## Object identity and `get_all_sessions`

`get_all_sessions` returns `dict(self._sessions)` — a *new* dictionary
holding the *same* `SessionData` objects.  To reason about that sharing the
store is re-rendered at the level of object references: sessions live in a
heap (`Ref → SessionData`), and the registry's dictionary maps ids to
references.  `dict(...)` copies the id → reference pairs and nothing
else. -/

/-- A reference to a `SessionData` object. -/
abbrev Ref := Nat

/-- The object heap: which `SessionData` value each live reference holds. -/
abbrev SessionHeap := List (Ref × SessionData)

/-- Dereference `r` in the heap. -/
def heapGet (h : SessionHeap) (r : Ref) : Option SessionData :=
  (h.find? (fun p => p.1 == r)).map (·.2)

/-- Mutate the object behind `r` in place (what a caller does when it
assigns to a field of a `SessionData` it holds a reference to). -/
def heapWrite (h : SessionHeap) (r : Ref) (s : SessionData) : SessionHeap :=
  h.map (fun p => if p.1 == r then (p.1, s) else p)

/-- The registry's dictionary at the reference level: session id → object
reference. -/
structure RefStore where
  sessions : List (String × Ref)
deriving DecidableEq

namespace RefStore

/-- Model of `ThreadSafeSessionStore.get_all_sessions`: `dict(self._sessions)` — a
fresh dictionary value containing exactly the registry's id → object-reference
pairs (a shallow copy: the `SessionData` objects themselves are not
copied). -/
def get_all_sessions (st : RefStore) : List (String × Ref) :=
  st.sessions

/-- What the registry holds for `session_id`: look the id up in the
registry's own dictionary and dereference the stored object. -/
def storedSession (st : RefStore) (h : SessionHeap) (session_id : String) :
    Option SessionData :=
  (st.sessions.find? (fun p => p.1 == session_id)).bind
    (fun p => heapGet h p.2)

end RefStore

/-- A concrete session used to exercise the snapshot sharing: one pending
participant, no feedback yet. -/
def snapSession : SessionData :=
  SessionData.init "s1" "boss" "chan" ["a"] none none 0

/-- A one-object heap holding `snapSession` behind reference `0`. -/
def snapHeap : SessionHeap := [(0, snapSession)]

/-- A registry whose dictionary maps `"s1"` to that object. -/
def snapStore : RefStore := ⟨[("s1", 0)]⟩

/-- Concrete sessions for exercising the registry contracts. -/
def sessA : SessionData := SessionData.init "a1" "i" "c" ["u"] none none 0

/-- Second concrete session. -/
def sessB : SessionData := SessionData.init "b1" "i" "c" ["v"] none none 0

/-- Third concrete session. -/
def sessC : SessionData := SessionData.init "c1" "i" "c" ["w"] none none 0

/-- A registry with `max_sessions = 2` filled to capacity. -/
def storeTwo : ThreadSafeSessionStore :=
  ((ThreadSafeSessionStore.mkStore (some 2)).addRun sessA).addRun sessB

/-- A registry built with `max_sessions = 0` (meaning unlimited) holding two
sessions. -/
def storeNoCap : ThreadSafeSessionStore :=
  ((ThreadSafeSessionStore.mkStore (some 0)).addRun sessA).addRun sessB

/-! ## Theorems -/

/-- Freshly constructed sessions satisfy the pending/submitted partition
invariant: `pending` starts as the whole target set and `submitted` empty. -/
theorem sessionInv_init (session_id initiator channel : String)
    (targets : List String) (tl : Option Int) (reason : Option String)
    (t0 : Nat) :
    SessionInv (SessionData.init session_id initiator channel targets tl reason t0) := by
  constructor <;> simp [SessionData.init, SessionInv]

/-- A `submit` call — successful or failing — preserves the partition
invariant. -/
theorem sessionInv_submitRun (s : SessionData) (u item : String) (now : Nat)
    (h : SessionInv s) : SessionInv (s.submitRun u item now) := by
  obtain ⟨hd, hu⟩ := h
  unfold SessionData.submitRun SessionData.submit
  by_cases h1 : u ∈ s.submitted_users
  · simpa [h1] using ⟨hd, hu⟩
  · by_cases h2 : u ∈ s.pending_users
    · simp only [h1, h2, if_neg, if_pos, not_true_eq_false, not_false_eq_true,
        ite_false, ite_true]
      constructor
      · ext a
        simp only [Finset.mem_inter, Finset.mem_erase, Finset.mem_insert,
          Finset.not_mem_empty, iff_false, not_and]
        rintro ⟨hne, hap⟩ (rfl | hsub)
        · exact hne rfl
        · have := Finset.eq_empty_iff_forall_not_mem.mp hd a
          simp only [Finset.mem_inter, not_and] at this
          exact this hap hsub
      · rw [← hu]
        ext a
        by_cases hau : a = u <;>
          simp only [Finset.mem_union, Finset.mem_erase, Finset.mem_insert, hau] <;>
          tauto
    · simpa [h1, h2] using ⟨hd, hu⟩



/-- Every operation of the session lifecycle preserves the partition
invariant. -/
theorem sessionInv_applyOp (s : SessionData) (op : SessionOp)
    (h : SessionInv s) : SessionInv (applyOp s op) := by
  cases op with
  | submit u item now => exact sessionInv_submitRun s u item now h
  | add_feedback item now =>
    simpa [applyOp, SessionData.add_feedback, SessionInv] using h
  | complete_session summary now =>
    simpa [applyOp, SessionData.complete_session, SessionInv] using h

/-- The partition invariant is preserved by any sequence of operations. -/
theorem sessionInv_runOps (s : SessionData) (ops : List SessionOp)
    (h : SessionInv s) : SessionInv (runOps s ops) := by
  induction ops generalizing s with
  | nil => exact h
  | cons op ops ih => exact ih _ (sessionInv_applyOp s op h)

/-- Claim C1: after any sequence of operations on a session (construction
with a target list, any number of `submit` calls, `add_feedback`,
`complete_session`), `pending_users` and `submitted_users` are disjoint and
their union is the set of original target participant ids; and a successful
`submit` moves exactly one id — the submitter — from `pending_users` to
`submitted_users`. -/
theorem session_pending_submitted_partition
    (session_id initiator channel : String) (targets : List String)
    (tl : Option Int) (reason : Option String) (t0 : Nat)
    (ops : List SessionOp) :
    SessionInv (runOps
      (SessionData.init session_id initiator channel targets tl reason t0) ops) ∧
    (∀ (s : SessionData) (u item : String) (now : Nat),
      u ∈ s.pending_users → u ∉ s.submitted_users →
        (s.submit u item now).isOk = true ∧
        (s.submitRun u item now).pending_users = s.pending_users.erase u ∧
        (s.submitRun u item now).submitted_users = insert u s.submitted_users) := by
  constructor
  · exact sessionInv_runOps _ ops
      (sessionInv_init session_id initiator channel targets tl reason t0)
  · intro s u item now hp hs
    unfold SessionData.submitRun SessionData.submit
    simp [hp, hs, Except.isOk, Except.toBool]

/-- Concrete instance of claim C1: a two-participant session after one
submission. -/
theorem session_pending_submitted_partition_witness :
    SessionInv (runOps (SessionData.init "s" "i" "c" ["a", "b"] none none 0)
      [SessionOp.submit "a" "x" 1]) ∧
    ((SessionData.init "s" "i" "c" ["a", "b"] none none 0).submitRun "a" "x" 1).submitted_users =
      insert "a" (SessionData.init "s" "i" "c" ["a", "b"] none none 0).submitted_users := by
  have h := session_pending_submitted_partition "s" "i" "c" ["a", "b"]
    none none 0 [SessionOp.submit "a" "x" 1]
  exact ⟨h.1, (h.2 _ "a" "x" 1 (by decide) (by decide)).2.2⟩

/-- Claim C2: `submit` fails with the duplicate-submission error exactly when
the id is already in `submitted_users`, fails with the not-a-participant
error exactly when the id is in neither set, and a failing call leaves the
session — `pending_users`, `submitted_users` and `feedback_items` included —
exactly as it was. -/
theorem submit_error_spec (s : SessionData) (u item : String) (now : Nat) :
    (s.submit u item now = .error .alreadySubmitted ↔ u ∈ s.submitted_users) ∧
    (s.submit u item now = .error .notAParticipant ↔
      (u ∉ s.submitted_users ∧ u ∉ s.pending_users)) ∧
    (∀ e : SubmitError, s.submit u item now = .error e →
      s.submitRun u item now = s) := by
  unfold SessionData.submitRun SessionData.submit
  by_cases h1 : u ∈ s.submitted_users <;> by_cases h2 : u ∈ s.pending_users <;>
    simp [h1, h2]

/-- Concrete instance of claim C2: a duplicate submission and a stranger's
submission against a one-participant session both fail and leave the
session untouched. -/
theorem submit_error_spec_witness :
    ((SessionData.init "s" "i" "c" ["a"] none none 0).submitRun "a" "x" 1).submit "a" "y" 2 =
      .error .alreadySubmitted ∧
    (SessionData.init "s" "i" "c" ["a"] none none 0).submit "q" "x" 1 =
      .error .notAParticipant ∧
    (SessionData.init "s" "i" "c" ["a"] none none 0).submitRun "q" "x" 1 =
      SessionData.init "s" "i" "c" ["a"] none none 0 := by
  have hdup := submit_error_spec
    ((SessionData.init "s" "i" "c" ["a"] none none 0).submitRun "a" "x" 1) "a" "y" 2
  have hnp := submit_error_spec (SessionData.init "s" "i" "c" ["a"] none none 0) "q" "x" 1
  refine ⟨hdup.1.mpr (by decide), hnp.2.1.mpr ⟨by decide, by decide⟩, ?_⟩
  exact hnp.2.2 .notAParticipant (hnp.2.1.mpr ⟨by decide, by decide⟩)

/-- Claim C9: `is_complete` is the derived predicate "force-completed or no
pending participant" (a pure read — the embedding of the property getter is
a function of the state alone), so a session created with an empty target
list is complete immediately after construction. -/
theorem is_complete_derived (s : SessionData)
    (session_id initiator channel : String) (tl : Option Int)
    (reason : Option String) (t0 : Nat) :
    (s.is_complete = true ↔ (s.forced_complete = true ∨ s.pending_users = ∅)) ∧
    (SessionData.init session_id initiator channel [] tl reason t0).is_complete = true := by
  constructor
  · simp [SessionData.is_complete]
  · simp [SessionData.is_complete, SessionData.init]

/-- Appending a fresh key to a dictionary makes lookups of that key find the
new entry. -/
theorem find?_append_self (l : List (String × SessionData)) (k : String)
    (v : SessionData) (h : l.find? (fun p => p.1 == k) = none) :
    (l ++ [(k, v)]).find? (fun p => p.1 == k) = some (k, v) := by
  induction l with
  | nil => simp
  | cons x xs ih =>
    cases hx : x.1 == k with
    | true =>
      simp only [List.find?_cons, hx] at h
      exact absurd h (by simp)
    | false =>
      simp only [List.find?_cons, hx] at h
      rw [List.cons_append]
      simp only [List.find?_cons, hx]
      exact ih h

/-- A key whose lookup finds nothing fails the `any` membership test used by
`dictInsert`. -/
theorem any_eq_false_of_find?_none (l : List (String × SessionData))
    (k : String) (h : l.find? (fun p => p.1 == k) = none) :
    l.any (fun p => p.1 == k) = false := by
  induction l with
  | nil => simp
  | cons x xs ih =>
    cases hx : x.1 == k with
    | true =>
      simp only [List.find?_cons, hx] at h
      exact absurd h (by simp)
    | false =>
      simp only [List.find?_cons, hx] at h
      simp only [List.any_cons, hx, Bool.false_or]
      exact ih h

/-- Overwriting the value stored under a present key makes lookups of that
key find the new value. -/
theorem find?_map_update (l : List (String × SessionData)) (k : String)
    (v : SessionData) (h : (l.find? (fun p => p.1 == k)).isSome) :
    (l.map (fun p => if p.1 == k then (p.1, v) else p)).find?
      (fun p => p.1 == k) = some (k, v) := by
  induction l with
  | nil => simp at h
  | cons x xs ih =>
    cases hx : x.1 == k with
    | true =>
      have hk : x.1 = k := by simpa using hx
      simp only [List.map_cons, hx, if_pos, ite_true, List.find?_cons, hk,
        beq_self_eq_true]
    | false =>
      simp only [List.find?_cons, hx] at h
      simp only [List.map_cons, hx, Bool.false_eq_true, if_false, ite_false,
        List.find?_cons]
      exact ih h

/-- Claim C4: with a configured maximum already reached, `add_session` fails
with the capacity error and leaves the registry unchanged (same `count`, no
insertion); below capacity, an already-present id fails with the
duplicate-id error and leaves the registry unchanged; otherwise the session
is inserted (it becomes retrievable and `count` grows by one).  The
capacity guard runs first, as in the source. -/
theorem add_session_spec (st : ThreadSafeSessionStore) (sd : SessionData) :
    (∀ m : Int, st.max_sessions = some m → m ≤ (st.count : Int) →
      st.add_session sd = .error .capacityExceeded ∧
      st.addRun sd = st ∧ (st.addRun sd).count = st.count) ∧
    (st.atCapacity = false → st.find? sd.session_id ≠ none →
      st.add_session sd = .error .duplicateId ∧ st.addRun sd = st) ∧
    (st.atCapacity = false → st.find? sd.session_id = none →
      st.add_session sd = .ok (st.dictInsert sd) ∧
      (st.dictInsert sd).find? sd.session_id = some sd ∧
      (st.dictInsert sd).count = st.count + 1) := by
  refine ⟨?_, ?_, ?_⟩
  · intro m hm hle
    have hcap : st.atCapacity = true := by
      simp [ThreadSafeSessionStore.atCapacity, hm, hle]
    simp [ThreadSafeSessionStore.add_session, ThreadSafeSessionStore.addRun, hcap]
  · intro hcap hdup
    simp [ThreadSafeSessionStore.add_session, ThreadSafeSessionStore.addRun,
      hcap, hdup]
  · intro hcap hnone
    have hfind : st.sessions.find? (fun p => p.1 == sd.session_id) = none := by
      simpa [ThreadSafeSessionStore.find?] using hnone
    have hany := any_eq_false_of_find?_none st.sessions sd.session_id hfind
    refine ⟨by simp [ThreadSafeSessionStore.add_session, hcap, hnone], ?_, ?_⟩
    · simp only [ThreadSafeSessionStore.dictInsert, hany, Bool.false_eq_true,
        if_false, ite_false, ThreadSafeSessionStore.find?]
      rw [find?_append_self st.sessions sd.session_id sd hfind]
      rfl
    · simp [ThreadSafeSessionStore.dictInsert, hany,
        ThreadSafeSessionStore.count]

/-- Concrete instance of claim C4: a registry with `max_sessions = 2`
holding two sessions refuses a third with the capacity error and still
counts two sessions. -/
theorem add_session_spec_witness :
    storeTwo.count = 2 ∧
    storeTwo.add_session sessC = .error .capacityExceeded ∧
    storeTwo.addRun sessC = storeTwo ∧
    (storeTwo.addRun sessC).count = storeTwo.count := by
  have h := (add_session_spec storeTwo sessC).1 2 (by decide) (by decide)
  exact ⟨by decide, h.1, h.2.1, h.2.2⟩

/-- Claim C5: `modify_session` on an absent id fails with the not-found
error without invoking the modifier (the result does not depend on it); on
a present id it applies the modifier to the stored session, refreshes that
session's `last_accessed_at`, stores the result and returns that same
session; and an error raised by the modifier propagates to the caller. -/
theorem modify_session_spec {ε : Type} (st : ThreadSafeSessionStore)
    (session_id : String) (f g : SessionData → Except ε SessionData)
    (now : Nat) :
    (st.find? session_id = none →
      st.modify_session session_id f now = .error .notFound ∧
      st.modify_session session_id f now = st.modify_session session_id g now) ∧
    (∀ s, st.find? session_id = some s → ∀ e, f s = .error e →
      st.modify_session session_id f now = .error (.callerErr e)) ∧
    (∀ s s', st.find? session_id = some s → f s = .ok s' →
      st.modify_session session_id f now =
        .ok ({ s' with last_accessed_at := now },
          { st with sessions := st.sessions.map (fun p =>
              if p.1 == session_id then
                (p.1, { s' with last_accessed_at := now })
              else p) }) ∧
      ({ st with sessions := st.sessions.map (fun p =>
          if p.1 == session_id then
            (p.1, { s' with last_accessed_at := now })
          else p) } : ThreadSafeSessionStore).find? session_id =
        some { s' with last_accessed_at := now }) := by
  refine ⟨?_, ?_, ?_⟩
  · intro h
    simp [ThreadSafeSessionStore.modify_session, h]
  · intro s hs e he
    simp [ThreadSafeSessionStore.modify_session, hs, he]
  · intro s s' hs hf
    have hsome : (st.sessions.find? (fun p => p.1 == session_id)).isSome := by
      simp only [ThreadSafeSessionStore.find?] at hs
      cases hfind : st.sessions.find? (fun p => p.1 == session_id) with
      | none => rw [hfind] at hs; simp at hs
      | some p => simp
    refine ⟨by simp [ThreadSafeSessionStore.modify_session, hs, hf], ?_⟩
    simp only [ThreadSafeSessionStore.find?]
    rw [find?_map_update st.sessions session_id _ hsome]
    rfl

/-- Concrete instance of claim C5: modifying a present session stores and
returns the modified session with a refreshed timestamp, a raising modifier
propagates its error, and an absent id fails with not-found. -/
theorem modify_session_spec_witness :
    storeTwo.modify_session "a1"
        (fun s => (Except.ok (s.add_feedback "z" 5) : Except Unit SessionData)) 7 =
      .ok ({ sessA.add_feedback "z" 5 with last_accessed_at := 7 },
        { storeTwo with sessions := storeTwo.sessions.map (fun p =>
            if p.1 == "a1" then
              (p.1, { sessA.add_feedback "z" 5 with last_accessed_at := 7 })
            else p) }) ∧
    storeTwo.modify_session "a1"
        (fun _ => (Except.error () : Except Unit SessionData)) 7 =
      .error (.callerErr ()) ∧
    storeTwo.modify_session "zz"
        (fun s => (Except.ok (s.add_feedback "z" 5) : Except Unit SessionData)) 7 =
      .error .notFound := by
  refine ⟨?_, ?_, ?_⟩
  · exact ((modify_session_spec storeTwo "a1"
      (fun s => (Except.ok (s.add_feedback "z" 5) : Except Unit SessionData))
      (fun s => (Except.ok (s.add_feedback "z" 5) : Except Unit SessionData)) 7).2.2
      sessA (sessA.add_feedback "z" 5) (by decide) rfl).1
  · exact (modify_session_spec storeTwo "a1"
      (fun _ => (Except.error () : Except Unit SessionData))
      (fun _ => (Except.error () : Except Unit SessionData)) 7).2.1
      sessA (by decide) () rfl
  · exact ((modify_session_spec storeTwo "zz"
      (fun s => (Except.ok (s.add_feedback "z" 5) : Except Unit SessionData))
      (fun s => (Except.ok (s.add_feedback "z" 5) : Except Unit SessionData)) 7).1
      (by decide)).1

/-- Claim C10: a registry constructed with a non-positive (or absent)
`max_sessions` stores no ceiling at all, and a registry without a ceiling
never fails with the capacity error — `add_session` can only fail with the
duplicate-id error — whatever number of sessions it already holds. -/
theorem nonpositive_max_means_unlimited (max0 : Option Int)
    (st : ThreadSafeSessionStore) (sd : SessionData) :
    (max0.getD 0 ≤ 0 → (ThreadSafeSessionStore.mkStore max0).max_sessions = none) ∧
    (st.max_sessions = none →
      st.add_session sd ≠ .error .capacityExceeded ∧
      (∀ e, st.add_session sd = .error e → e = .duplicateId)) := by
  constructor
  · intro h
    simp only [ThreadSafeSessionStore.mkStore]
    rw [if_neg (by omega)]
  · intro h
    have hcap : st.atCapacity = false := by
      simp [ThreadSafeSessionStore.atCapacity, h]
    by_cases hdup : st.find? sd.session_id ≠ none <;>
      simp [ThreadSafeSessionStore.add_session, hcap, hdup]

/-- Concrete instance of claim C10: a registry built with `max_sessions = 0`
holding two sessions accepts a third — no capacity error. -/
theorem nonpositive_max_means_unlimited_witness :
    (ThreadSafeSessionStore.mkStore (some 0)).max_sessions = none ∧
    storeNoCap.add_session sessC ≠ .error .capacityExceeded := by
  have h := nonpositive_max_means_unlimited (some 0) storeNoCap sessC
  exact ⟨h.1 (by decide), (h.2 (by decide)).1⟩

/-- Reflexivity of the heap yield order. -/
theorem scheduledItem_le_rfl (a : ScheduledItem) : ScheduledItem.le a a := by
  unfold ScheduledItem.le
  omega

/-- Transitivity of the heap yield order. -/
theorem scheduledItem_le_trans (a b c : ScheduledItem)
    (hab : ScheduledItem.le a b) (hbc : ScheduledItem.le b c) :
    ScheduledItem.le a c := by
  unfold ScheduledItem.le at hab hbc ⊢
  omega

/-- The strict heap order implies the yield order. -/
theorem scheduledItem_le_of_lt (a b : ScheduledItem)
    (h : ScheduledItem.lt a b) : ScheduledItem.le a b := by
  unfold ScheduledItem.lt at h
  unfold ScheduledItem.le
  omega

/-- Totality: when `b < a` fails, `a` yields no later than `b`. -/
theorem scheduledItem_le_of_not_lt (a b : ScheduledItem)
    (h : ¬ ScheduledItem.lt b a) : ScheduledItem.le a b := by
  unfold ScheduledItem.lt at h
  unfold ScheduledItem.le
  omega

/-- Popping the heap minimum leaves one element fewer. -/
theorem popMin_length (x : ScheduledItem) (l : List ScheduledItem) :
    (popMin x l).2.length = l.length := by
  induction l generalizing x with
  | nil => rfl
  | cons y ys ih =>
    by_cases h : ScheduledItem.lt y x <;> simp [popMin, h, ih]

/-- Popping the heap minimum is a permutation: nothing is lost or
duplicated. -/
theorem popMin_perm (x : ScheduledItem) (l : List ScheduledItem) :
    List.Perm ((popMin x l).1 :: (popMin x l).2) (x :: l) := by
  induction l generalizing x with
  | nil => exact List.Perm.refl _
  | cons y ys ih =>
    by_cases h : ScheduledItem.lt y x
    · simp only [popMin, h, ite_true]
      exact (List.Perm.swap x _ _).trans ((ih y).cons x)
    · simp only [popMin, h, ite_false]
      exact ((List.Perm.swap y _ _).trans ((ih x).cons y)).trans
        (List.Perm.swap x y ys)

/-- The popped element is least — it yields no later than the seed and than
every remaining element. -/
theorem popMin_min (x : ScheduledItem) (l : List ScheduledItem) :
    ScheduledItem.le (popMin x l).1 x ∧
    ∀ z ∈ (popMin x l).2, ScheduledItem.le (popMin x l).1 z := by
  induction l generalizing x with
  | nil => exact ⟨scheduledItem_le_rfl x, by simp [popMin]⟩
  | cons y ys ih =>
    by_cases h : ScheduledItem.lt y x
    · obtain ⟨h1, h2⟩ := ih y
      simp only [popMin, h, ite_true]
      refine ⟨scheduledItem_le_trans _ _ _ h1 (scheduledItem_le_of_lt _ _ h), ?_⟩
      intro z hz
      rcases List.mem_cons.mp hz with rfl | hz
      · exact scheduledItem_le_trans _ _ _ h1 (scheduledItem_le_of_lt _ _ h)
      · exact h2 z hz
    · obtain ⟨h1, h2⟩ := ih x
      simp only [popMin, h, ite_false]
      refine ⟨h1, ?_⟩
      intro z hz
      rcases List.mem_cons.mp hz with rfl | hz
      · exact scheduledItem_le_trans _ _ _ h1 (scheduledItem_le_of_not_lt _ _ h)
      · exact h2 z hz

/-- Draining a queue with enough fuel yields a permutation of the queue. -/
theorem dispatchFuel_perm (n : Nat) :
    ∀ l : List ScheduledItem, l.length ≤ n →
      List.Perm (dispatchFuel n l) l := by
  induction n with
  | zero =>
    intro l h
    rw [List.length_eq_zero.mp (Nat.le_zero.mp h)]
    exact List.Perm.refl _
  | succ n ih =>
    intro l h
    match l with
    | [] => exact List.Perm.refl _
    | x :: xs =>
      simp only [dispatchFuel]
      have hlen : (popMin x xs).2.length ≤ n := by
        rw [popMin_length]
        simpa using h
      exact ((ih _ hlen).cons _).trans (popMin_perm x xs)

/-- Draining a queue with enough fuel yields the items in heap order:
non-decreasing `(run_at, task_id)`. -/
theorem dispatchFuel_sorted (n : Nat) :
    ∀ l : List ScheduledItem, l.length ≤ n →
      List.Pairwise ScheduledItem.le (dispatchFuel n l) := by
  induction n with
  | zero => intro l h; simp [dispatchFuel]
  | succ n ih =>
    intro l h
    match l with
    | [] => simp [dispatchFuel]
    | x :: xs =>
      simp only [dispatchFuel]
      have hlen : (popMin x xs).2.length ≤ n := by
        rw [popMin_length]
        simpa using h
      refine List.Pairwise.cons ?_ (ih _ hlen)
      intro z hz
      exact (popMin_min x xs).2 z ((dispatchFuel_perm n _ hlen).mem_iff.mp hz)

/-- The dispatch order is a permutation of the queue. -/
theorem dispatchOrder_perm (l : List ScheduledItem) :
    List.Perm (dispatchOrder l) l :=
  dispatchFuel_perm l.length l (Nat.le_refl _)

/-- The dispatch order is sorted by `(run_at, task_id)`. -/
theorem dispatchOrder_sorted (l : List ScheduledItem) :
    List.Pairwise ScheduledItem.le (dispatchOrder l) :=
  dispatchFuel_sorted l.length l (Nat.le_refl _)

/-- With distinct task ids (always true of ids drawn from the monotone
counter), the dispatch order is strictly increasing in
`(run_at, task_id)`. -/
theorem dispatchOrder_strict (l : List ScheduledItem)
    (h : (l.map ScheduledItem.task_id).Nodup) :
    List.Pairwise ScheduledItem.lt (dispatchOrder l) := by
  have hnd : ((dispatchOrder l).map ScheduledItem.task_id).Nodup :=
    (((dispatchOrder_perm l).map ScheduledItem.task_id).nodup_iff).mpr h
  have hne : List.Pairwise (fun a b : ScheduledItem =>
      a.task_id ≠ b.task_id) (dispatchOrder l) :=
    List.pairwise_map.mp hnd
  refine ((dispatchOrder_sorted l).and hne).imp ?_
  intro a b hab
  obtain ⟨h1, h2⟩ := hab
  unfold ScheduledItem.le at h1
  unfold ScheduledItem.lt
  omega

/-- Unfolding step of `dispatchOrder` on a non-empty queue. -/
theorem dispatchOrder_cons (x : ScheduledItem) (xs : List ScheduledItem) :
    dispatchOrder (x :: xs) =
      (popMin x xs).1 :: dispatchOrder (popMin x xs).2 := by
  simp [dispatchOrder, dispatchFuel, popMin_length]

/-- A stopped background loop does nothing at all. -/
theorem runStep_not_running (st : Scheduler) (now : Int)
    (h : st.running = false) : st.runStep now = st := by
  simp [Scheduler.runStep, h]

/-- A stopped background loop does nothing, however long it is observed. -/
theorem runLoop_not_running (nows : List Int) :
    ∀ st : Scheduler, st.running = false → st.runLoop nows = st := by
  induction nows with
  | nil => intro st _; rfl
  | cons now rest ih =>
    intro st h
    simp only [Scheduler.runLoop, runStep_not_running st now h]
    exact ih st h

/-- While running, a loop observed once per queued task at a time past every
deadline submits exactly the queue, in dispatch order, after whatever was
already submitted. -/
theorem runLoop_dispatches_due (now : Int) (n : Nat) :
    ∀ st : Scheduler, st.queue.length = n → st.running = true →
      (∀ it ∈ st.queue, it.run_at ≤ now) →
      (st.runLoop (List.replicate n now)).dispatched =
        st.dispatched ++ dispatchOrder st.queue := by
  induction n with
  | zero =>
    intro st hlen _ _
    rw [List.length_eq_zero.mp hlen]
    simp [List.replicate, Scheduler.runLoop, dispatchOrder, dispatchFuel]
  | succ n ih =>
    intro st hlen hrun hdue
    match hq : st.queue with
    | [] => rw [hq] at hlen; simp at hlen
    | x :: xs =>
      rw [hq] at hlen hdue
      have hmem : (popMin x xs).1 ∈ x :: xs :=
        (popMin_perm x xs).subset (List.mem_cons_self _ _)
      have hdue1 : (popMin x xs).1.run_at ≤ now := hdue _ hmem
      have hstep : st.runStep now =
          { st with queue := (popMin x xs).2,
                    dispatched := st.dispatched ++ [(popMin x xs).1] } := by
        simp [Scheduler.runStep, hrun, hq, hdue1]
      have hlen2 : ((popMin x xs).2).length = n := by
        rw [popMin_length]
        simpa using hlen
      have hih := ih { st with queue := (popMin x xs).2,
                               dispatched := st.dispatched ++ [(popMin x xs).1] }
        (by simpa using hlen2) hrun
        (fun it hit =>
          hdue it ((popMin_perm x xs).subset (List.mem_cons_of_mem _ hit)))
      rw [List.replicate_succ]
      simp only [Scheduler.runLoop, hstep]
      rw [hih, dispatchOrder_cons]
      simp

/-- Everything the loop ever submits was already submitted or queued when
observation began. -/
theorem runLoop_dispatched_sources (nows : List Int) :
    ∀ st : Scheduler, ∀ it ∈ (st.runLoop nows).dispatched,
      it ∈ st.dispatched ∨ it ∈ st.queue := by
  induction nows with
  | nil => intro st it h; exact Or.inl h
  | cons now rest ih =>
    intro st it h
    have h' := ih (st.runStep now) it h
    by_cases hrun : st.running = true
    · match hq : st.queue with
      | [] =>
        rw [show st.runStep now = st by simp [Scheduler.runStep, hrun, hq]] at h'
        rw [hq] at h'
        exact h'
      | x :: xs =>
        by_cases hdue : (popMin x xs).1.run_at ≤ now
        · rw [show st.runStep now =
              { st with queue := (popMin x xs).2,
                        dispatched := st.dispatched ++ [(popMin x xs).1] } by
            simp [Scheduler.runStep, hrun, hq, hdue]] at h'
          rcases h' with hd | hqmem
          · rcases List.mem_append.mp hd with hd | hd
            · exact Or.inl hd
            · refine Or.inr ?_
              rw [List.mem_singleton.mp hd]
              exact (popMin_perm x xs).subset (List.mem_cons_self _ _)
          · exact Or.inr
              ((popMin_perm x xs).subset (List.mem_cons_of_mem _ hqmem))
        · rw [show st.runStep now = st by
            simp [Scheduler.runStep, hrun, hq, hdue]] at h'
          rw [hq] at h'
          exact h'
    · rw [runStep_not_running st now (by simpa using hrun)] at h'
      exact h'

/-- Task ids handed out by a sequence of `schedule` calls are bounded below
by the current counter and strictly increasing. -/
theorem scheduleAll_ids (reqs : List (Int × Int × Nat)) :
    ∀ st : Scheduler,
      (∀ i ∈ (st.scheduleAll reqs).1, st.task_counter ≤ i) ∧
      List.Pairwise (· < ·) (st.scheduleAll reqs).1 := by
  induction reqs with
  | nil => intro st; simp [Scheduler.scheduleAll]
  | cons r rest ih =>
    intro st
    obtain ⟨now, d, cb⟩ := r
    by_cases hd : d < 0
    · simp only [Scheduler.scheduleAll, Scheduler.schedule, hd, ite_true]
      exact ih st
    · simp only [Scheduler.scheduleAll, Scheduler.schedule, hd, ite_false]
      obtain ⟨ihlb, ihsort⟩ := ih { st with
        queue := st.queue ++ [⟨now + d, st.task_counter, cb⟩],
        task_counter := st.task_counter + 1 }
      constructor
      · intro i hi
        rcases List.mem_cons.mp hi with rfl | hi
        · exact Nat.le_refl _
        · exact Nat.le_of_succ_le (ihlb i hi)
      · refine List.Pairwise.cons ?_ ihsort
        intro z hz
        exact Nat.lt_of_succ_le (ihlb z hz)

/-- Claim C3: the scheduler dispatches tasks in non-decreasing fire-time
order with the monotone task id (scheduling order) as tie-break: the
dispatch order is a permutation of the queue sorted by `(run_at, task_id)`
— strictly so for the distinct ids the counter produces — the background
loop run over a due queue submits exactly that order, and four tasks with
deadlines `t1 < t2 = t2b < t3` (the `t2` task scheduled before the `t2b`
task) dispatch as `t1, t2, t2b, t3`. -/
theorem scheduler_dispatch_order (l : List ScheduledItem)
    (t1 t2 t3 : Int) (c0 c1 c2 c3 : Nat) (st : Scheduler) (now : Int) :
    List.Perm (dispatchOrder l) l ∧
    List.Pairwise ScheduledItem.le (dispatchOrder l) ∧
    ((l.map ScheduledItem.task_id).Nodup →
      List.Pairwise ScheduledItem.lt (dispatchOrder l)) ∧
    (st.running = true → (∀ it ∈ st.queue, it.run_at ≤ now) →
      (st.runLoop (List.replicate st.queue.length now)).dispatched =
        st.dispatched ++ dispatchOrder st.queue) ∧
    (t1 < t2 → t2 < t3 →
      dispatchOrder [⟨t1, 0, c0⟩, ⟨t2, 1, c1⟩, ⟨t2, 2, c2⟩, ⟨t3, 3, c3⟩] =
        [⟨t1, 0, c0⟩, ⟨t2, 1, c1⟩, ⟨t2, 2, c2⟩, ⟨t3, 3, c3⟩]) := by
  refine ⟨dispatchOrder_perm l, dispatchOrder_sorted l, dispatchOrder_strict l,
    runLoop_dispatches_due now st.queue.length st rfl, ?_⟩
  intro h12 h23
  have hs1 : List.Sorted ScheduledItem.lt
      (dispatchOrder [⟨t1, 0, c0⟩, ⟨t2, 1, c1⟩, ⟨t2, 2, c2⟩, ⟨t3, 3, c3⟩]) :=
    dispatchOrder_strict _ (by simp)
  have hs2 : List.Sorted ScheduledItem.lt
      [⟨t1, 0, c0⟩, ⟨t2, 1, c1⟩, ⟨t2, 2, c2⟩, ⟨t3, 3, c3⟩] := by
    rw [List.sorted_cons, List.sorted_cons, List.sorted_cons]
    refine ⟨?_, ?_, ?_, List.sorted_singleton _⟩ <;>
      intro b hb <;> fin_cases hb <;> simp [ScheduledItem.lt] <;> omega
  exact List.eq_of_perm_of_sorted (dispatchOrder_perm _) hs1 hs2

/-- Concrete instance of claim C3: four due tasks with deadlines
`1 < 2 = 2 < 3`, the id-1 task scheduled before the id-2 task, dispatch as
scheduled. -/
theorem scheduler_dispatch_order_witness :
    dispatchOrder [⟨1, 0, 10⟩, ⟨2, 1, 20⟩, ⟨2, 2, 21⟩, ⟨3, 3, 30⟩] =
      [⟨1, 0, 10⟩, ⟨2, 1, 20⟩, ⟨2, 2, 21⟩, ⟨3, 3, 30⟩] ∧
    List.Pairwise ScheduledItem.lt
      (dispatchOrder [⟨1, 0, 10⟩, ⟨2, 1, 20⟩, ⟨2, 2, 21⟩, ⟨3, 3, 30⟩]) := by
  have h := scheduler_dispatch_order
    [⟨1, 0, 10⟩, ⟨2, 1, 20⟩, ⟨2, 2, 21⟩, ⟨3, 3, 30⟩]
    1 2 3 10 20 21 30 Scheduler.init 0
  exact ⟨h.2.2.2.2 (by decide) (by decide), h.2.2.1 (by decide)⟩

/-- Claim C6: after `shutdown` the background loop dispatches nothing more —
tasks still pending in the queue at shutdown stay queued and are never
handed to the worker pool — the loop takes no further step at all (the
thread has exited, which is why joining it returns), and `shutdown` is safe
to repeat and safe on a scheduler that never received a task. -/
theorem shutdown_spec (st : Scheduler) (nows : List Int) (now : Int) :
    (st.shutdown.runLoop nows).dispatched = st.dispatched ∧
    (st.shutdown.runLoop nows).queue = st.queue ∧
    st.shutdown.runStep now = st.shutdown ∧
    st.shutdown.shutdown = st.shutdown ∧
    Scheduler.init.shutdown =
      { queue := [], task_counter := 0, running := false, dispatched := [] } := by
  have hrl : st.shutdown.runLoop nows = st.shutdown :=
    runLoop_not_running nows st.shutdown rfl
  refine ⟨?_, ?_, ?_, rfl, rfl⟩
  · rw [hrl]; rfl
  · rw [hrl]; rfl
  · exact runStep_not_running st.shutdown now rfl

/-- Claim C8: `schedule` rejects every negative delay with the invalid-delay
error, consuming no task id, queueing nothing and never letting the
rejected callback reach the worker pool; a non-negative delay succeeds,
queueing the task at `now + delay` under the next counter value; and the
task ids returned by successive successful `schedule` calls are strictly
increasing. -/
theorem schedule_spec (st : Scheduler) (now d : Int) (cb : Nat)
    (nows : List Int) (reqs : List (Int × Int × Nat)) :
    (d < 0 →
      st.schedule now d cb = .error .invalidDelay ∧
      st.scheduleRun now d cb = st ∧
      ((∀ it ∈ st.queue, it.callback ≠ cb) →
       (∀ it ∈ st.dispatched, it.callback ≠ cb) →
        ∀ it ∈ ((st.scheduleRun now d cb).runLoop nows).dispatched,
          it.callback ≠ cb)) ∧
    (0 ≤ d →
      st.schedule now d cb = .ok (st.task_counter,
        { st with queue := st.queue ++ [⟨now + d, st.task_counter, cb⟩],
                  task_counter := st.task_counter + 1 })) ∧
    List.Pairwise (· < ·) (st.scheduleAll reqs).1 := by
  refine ⟨?_, ?_, (scheduleAll_ids reqs st).2⟩
  · intro hd
    have herr : st.schedule now d cb = .error .invalidDelay := by
      simp [Scheduler.schedule, hd]
    have hrun : st.scheduleRun now d cb = st := by
      simp [Scheduler.scheduleRun, herr]
    refine ⟨herr, hrun, ?_⟩
    intro hq hdisp it hit
    rw [hrun] at hit
    rcases runLoop_dispatched_sources nows st it hit with h | h
    · exact hdisp it h
    · exact hq it h
  · intro hd
    simp [Scheduler.schedule, Int.not_lt.mpr hd]

/-- Concrete instance of claim C8: a fresh scheduler refuses delay `-1`
untouched and accepts delay `3` as task `0`. -/
theorem schedule_spec_witness :
    Scheduler.init.schedule 0 (-1) 7 = .error .invalidDelay ∧
    Scheduler.init.scheduleRun 0 (-1) 7 = Scheduler.init ∧
    Scheduler.init.schedule 0 3 7 =
      .ok (0, { queue := [⟨3, 0, 7⟩], task_counter := 1, running := true,
                dispatched := [] }) := by
  have h1 := (schedule_spec Scheduler.init 0 (-1) 7 [] []).1 (by decide)
  have h2 := (schedule_spec Scheduler.init 0 3 7 [] []).2.1 (by decide)
  refine ⟨h1.1, h1.2.1, ?_⟩
  rw [h2]
  rfl

/-- Writing through a reference changes what every holder of that reference
— the registry included — dereferences to. -/
theorem heapGet_heapWrite (h : SessionHeap) (r : Ref) (s : SessionData) :
    heapGet (heapWrite h r s) r = (heapGet h r).map (fun _ => s) := by
  induction h with
  | nil => rfl
  | cons p ps ih =>
    cases hp : p.1 == r with
    | true =>
      simp only [heapGet, heapWrite, List.map_cons, hp, if_pos, ite_true,
        List.find?_cons, beq_self_eq_true, Option.map_some']
    | false =>
      simp only [heapGet, heapWrite, List.map_cons, hp, Bool.false_eq_true,
        if_false, ite_false, List.find?_cons]
      exact ih

/-- Claim C7 (counterexample): `get_all_sessions` is a *shallow* copy
(`dict(self._sessions)`), so the snapshot shares the stored `SessionData`
objects, and a caller that mutates a session object reached through the
snapshot does change the registry's stored session: after writing through
the reference `0` listed in the snapshot, the registry's session `"s1"`
carries the new feedback item. -/
theorem snapshot_not_isolated :
    ("s1", 0) ∈ snapStore.get_all_sessions ∧
    snapStore.storedSession snapHeap "s1" = some snapSession ∧
    snapStore.storedSession
        (heapWrite snapHeap 0 (snapSession.add_feedback "mutated" 5)) "s1" =
      some (snapSession.add_feedback "mutated" 5) ∧
    (snapSession.add_feedback "mutated" 5).feedback_items ≠
      snapSession.feedback_items := by
  refine ⟨by decide, by decide, by decide, by decide⟩

/-- Claim C7 (amended): the snapshot is a fresh dictionary holding exactly
the registry's id → session-object entries, so reshaping the snapshot
mapping cannot alter the registry's own mapping; but the copy is shallow —
the session objects are shared — so an in-place mutation of a session
reached through a snapshot reference is seen by the registry. -/
theorem snapshot_shallow_copy (st : RefStore) (h : SessionHeap)
    (session_id : String) (r : Ref) (s' : SessionData) :
    st.get_all_sessions = st.sessions ∧
    (st.sessions.find? (fun p => p.1 == session_id) = some (session_id, r) →
      RefStore.storedSession st (heapWrite h r s') session_id =
        (heapGet h r).map (fun _ => s')) := by
  refine ⟨rfl, ?_⟩
  intro hfind
  simp [RefStore.storedSession, hfind, heapGet_heapWrite]

/-- Concrete instance of the amended claim C7: writing through the snapshot
reference of `"s1"` overwrites what the registry returns for `"s1"`. -/
theorem snapshot_shallow_copy_witness :
    snapStore.get_all_sessions = snapStore.sessions ∧
    RefStore.storedSession snapStore
        (heapWrite snapHeap 0 (snapSession.add_feedback "w" 9)) "s1" =
      (heapGet snapHeap 0).map (fun _ => snapSession.add_feedback "w" 9) := by
  have h := snapshot_shallow_copy snapStore snapHeap "s1" 0
    (snapSession.add_feedback "w" 9)
  exact ⟨h.1, h.2 (by decide)⟩
